import Mathlib

/-!
Verification development for the Rift CI-repair pipeline.

This file gives a shallow embedding of the core of the repository
(the repair-loop controller in `agent.py`, the error classifier and
`parse_errors_json` in `error_parser.py`, the log aggregator in
`infrastructure/parse_logs.py`, and the fix-strategy engine in
`fix_generator.py`) and proves / refutes the frozen specification claims
about it.

Conventions of the embedding:
* Python `str` is Lean `String`; Python string primitives
  (`lower`, `upper`, `in`, `startswith`, slicing, `strip`) are modelled
  by executable functions over `String.data` (lists of unicode scalar
  values, matching CPython code-point semantics for the ASCII data the
  pipeline handles).
* Python exceptions are modelled with `Except String`: a `.error` value
  is an exception propagating out of the modelled function.
* External effects (the file system, subprocesses, HTTP calls to LLM
  providers, `re` regular-expression matches of provider output) enter
  the model as explicit function parameters, so theorems quantify over
  every possible behaviour of the environment.
-/

/-! ### Python string primitives -/

/-- Lower-case an ASCII character; models `str.lower` character-wise
(the repository only classifies ASCII tool output). -/
def pyCharLower (c : Char) : Char :=
  if 'A' ≤ c ∧ c ≤ 'Z' then Char.ofNat (c.toNat + 32) else c

/-- Upper-case an ASCII character; models `str.upper` character-wise. -/
def pyCharUpper (c : Char) : Char :=
  if 'a' ≤ c ∧ c ≤ 'z' then Char.ofNat (c.toNat - 32) else c

/-- Models Python `s.lower()`. -/
def pyLower (s : String) : String := String.mk (s.data.map pyCharLower)

/-- Models Python `s.upper()`. -/
def pyUpper (s : String) : String := String.mk (s.data.map pyCharUpper)

/-- Substring test on character lists (helper for `pyIn`). -/
def listContains (pat : List Char) : List Char → Bool
  | [] => pat.isEmpty
  | c :: t => pat.isPrefixOf (c :: t) || listContains pat t

/-- Models Python `needle in haystack` for strings. -/
def pyIn (needle haystack : String) : Bool := listContains needle.data haystack.data

/-- Models Python `s.startswith(p)`. -/
def pyStartsWith (s p : String) : Bool := p.data.isPrefixOf s.data

/-- Models Python `s[:n]` (character-based slicing). -/
def pyTake (s : String) (n : Nat) : String := String.mk (s.data.take n)

/-- Models Python `len(s)` (number of code points). -/
def pyLen (s : String) : Nat := s.data.length

/-- Models Python `s.lstrip()` (default whitespace stripping). -/
def pyLStrip (s : String) : String := String.mk (s.data.dropWhile Char.isWhitespace)

/-- Models Python `s.strip()` (default whitespace stripping at both ends). -/
def pyStrip (s : String) : String :=
  String.mk (((s.data.dropWhile Char.isWhitespace).reverse.dropWhile Char.isWhitespace).reverse)

/-- Models Python `s.rstrip(chr)` for a single character `chr`. -/
def pyRStripChar (s : String) (chr : Char) : String :=
  String.mk ((s.data.reverse.dropWhile (· = chr)).reverse)

/-- Strict lexicographic order on character lists: this is exactly how
CPython compares two `str` values (code point by code point). -/
def lexLt : List Char → List Char → Bool
  | [], [] => false
  | [], _ :: _ => true
  | _ :: _, [] => false
  | a :: as, b :: bs => if a < b then true else if a = b then lexLt as bs else false

/-! ### Shared configuration (`config.py`) -/

/-- `VALID_BUG_TYPES` from `config.py` (a Python set; modelled as a list,
membership is what matters). -/
def VALID_BUG_TYPES : List String :=
  ["LINTING", "SYNTAX", "LOGIC", "TYPE_ERROR", "IMPORT", "INDENTATION"]

/-- `COMMIT_PREFIX = "[AI-AGENT]"` from `config.py`. -/
def commitTag : String := "[AI-AGENT]"

/-! ### Repair-loop controller (`agent.py`) -/

/-- `should_continue` from `agent.py`: the conditional edge of the
LangGraph state machine. Returns the name of the next node. -/
def should_continue (all_passed : Bool) (current_iteration max_iterations stagnant_count : Nat) :
    String :=
  if all_passed then "save_results"
  else if max_iterations ≤ current_iteration then "save_results"
  else if 2 ≤ stagnant_count then "save_results"
  else "analyze_logs"

/-- The convergence-tracking fragment of `analyze_logs` from `agent.py`:
append the newest error count to `error_count_history` and update
`stagnant_count` (`history[-1] >= history[-2]` increments, otherwise the
counter resets; on the first pass `len(history) < 2`, so it resets). -/
def analyze_update (history : List Nat) (stagnant : Nat) (newCount : Nat) :
    List Nat × Nat :=
  let h := history ++ [newCount]
  match history.getLast? with
  | some prev => if prev ≤ newCount then (h, stagnant + 1) else (h, 0)
  | none => (h, 0)

/-- Fold `analyze_update` over the per-iteration error counts, starting
from the initial state (`error_count_history=[]`, `stagnant_count=0`). -/
def run_history (counts : List Nat) : List Nat × Nat :=
  counts.foldl (fun p c => analyze_update p.1 p.2 c) ([], 0)

/-! ### Classifier (`error_parser.py`) -/

/-- A raw finding as consumed by `classify_bug_type`: the `source`,
`message` and `rule_code` fields of an `errors.json` record, with an
absent field read through `dict.get(..., "")` as the empty string. -/
structure RawErr where
  source : String
  message : String
  rule_code : String
deriving DecidableEq, Repr

/-- `classify_bug_type` from `error_parser.py`, translated branch by
branch (ruff branch, pytest branch, fallback heuristics). -/
def classify_bug_type (err : RawErr) : String :=
  let source := pyLower err.source
  let message := pyLower err.message
  let rule := pyUpper err.rule_code
  if source = "ruff" then
    if pyStartsWith rule "F4" || pyIn "import" message then "IMPORT"
    else if pyStartsWith rule "E1" || pyIn "indent" message then "INDENTATION"
    else if pyStartsWith rule "E9" || pyIn "syntax" message then "SYNTAX"
    else "LINTING"
  else if source = "pytest" then
    if pyIn "typeerror" message || pyIn "type error" message || pyIn "expected" message then
      "TYPE_ERROR"
    else if pyIn "syntaxerror" message then "SYNTAX"
    else if pyIn "importerror" message || pyIn "modulenotfounderror" message then "IMPORT"
    else if pyIn "indentationerror" message then "INDENTATION"
    else if pyIn "assertionerror" message || pyIn "assert" message then "LOGIC"
    else "LOGIC"
  else
    if pyIn "import" message then "IMPORT"
    else if pyIn "indent" message then "INDENTATION"
    else if pyIn "syntax" message then "SYNTAX"
    else if pyIn "type" message then "TYPE_ERROR"
    else "LINTING"

/-- The amended pytest-branch priority chain, written from the corrected
specification wording: a case-insensitive scan of the message where
`TypeError` (and also the plain phrase `type error` and the word
`expected`) maps to TYPE_ERROR, then `SyntaxError` to SYNTAX,
`ImportError`/`ModuleNotFoundError` to IMPORT, `IndentationError` to
INDENTATION; everything else is LOGIC. Used only to compare against
`classify_bug_type`. -/
def pytestChainSpec (message : String) : String :=
  let m := pyLower message
  if pyIn "typeerror" m || pyIn "type error" m || pyIn "expected" m then "TYPE_ERROR"
  else if pyIn "syntaxerror" m then "SYNTAX"
  else if pyIn "importerror" m || pyIn "modulenotfounderror" m then "IMPORT"
  else if pyIn "indentationerror" m then "INDENTATION"
  else "LOGIC"

/-! ### Log aggregator (`infrastructure/parse_logs.py`) -/

/-- `normalize_path` from `parse_logs.py`: convert backslashes to forward
slashes, then strip a leading `./` (Python `normalized[2:]` drops the
first two characters). -/
def normalize_path (filepath : String) : String :=
  let normalized := String.mk (filepath.data.map (fun c => if c = '\\' then '/' else c))
  if pyStartsWith normalized "./" then String.mk (normalized.data.drop 2) else normalized

/-- `RUFF_CODE_MAP` from `parse_logs.py`, as a lookup function
(`RUFF_CODE_MAP.get(code, DEFAULT_RUFF_TYPE)` is `(RUFF_CODE_MAP code).getD DEFAULT_RUFF_TYPE`). -/
def RUFF_CODE_MAP (code : String) : Option String :=
  if code = "E999" then some "SYNTAX"
  else if code = "F401" ∨ code = "F811" ∨ code = "I001" ∨ code = "I002" ∨
          code = "E401" ∨ code = "E402" then some "IMPORT"
  else if code = "E101" ∨ code = "E111" ∨ code = "E112" ∨ code = "E113" ∨
          code = "E114" ∨ code = "E115" ∨ code = "E116" ∨ code = "E117" ∨
          code = "W191" then some "INDENTATION"
  else if code = "F841" ∨ code = "E501" ∨ code = "E711" ∨ code = "E712" ∨
          code = "W291" ∨ code = "W292" ∨ code = "W293" then some "LINTING"
  else none

/-- `DEFAULT_RUFF_TYPE` from `parse_logs.py`. -/
def DEFAULT_RUFF_TYPE : String := "LINTING"

/-- One entry of the unified `errors.json` schema produced by
`parse_logs.py`. -/
structure LogEntry where
  type : String
  file : String
  line : Int
  message : String
  source : String
  code : String
deriving DecidableEq, Repr

/-- One element of the decoded Ruff JSON array that is a JSON object:
the fields `parse_ruff` reads, each `none` when the key is absent
(`item.get` defaults then apply; `row` also covers a missing
`location` object, whose `.get("row", 0)` yields `0`). Field values of
other JSON types make the source raise and are outside this model. -/
structure RuffObj where
  code : Option String
  message : Option String
  filename : Option String
  row : Option Int
deriving DecidableEq, Repr

/-- An element of the decoded Ruff JSON array: an object, or a non-object
value (on which `item.get(...)` raises `AttributeError`). -/
inductive RuffItem where
  | obj (o : RuffObj)
  | nonDict
deriving DecidableEq, Repr

/-- The state of one tool-output file as seen by a parser, after the
`open`/`json.loads` stage: the file may be missing (`FileNotFoundError`),
hold undecodable JSON (`JSONDecodeError`; an empty or `"[]"` file is
returned early as zero findings and is covered by `arr []`), decode to a
non-array value, or decode to an array of items. -/
inductive RuffInput where
  | missing
  | invalidJson
  | notList
  | arr (items : List RuffItem)

/-- The per-item body of the `parse_ruff` loop. -/
def parse_ruff_item (o : RuffObj) : Option LogEntry :=
  let code := o.code.getD ""
  let error_type := (RUFF_CODE_MAP code).getD DEFAULT_RUFF_TYPE
  let filename := normalize_path (o.filename.getD "unknown")
  let line := o.row.getD 0
  let message := o.message.getD "Unknown ruff error"
  if line ≤ 0 then none
  else some ⟨error_type, filename, line, message, "ruff", code⟩

/-- The item loop of `parse_ruff` with its accumulated `errors` list. -/
def parse_ruff_go : List RuffItem → List LogEntry → Except String (List LogEntry)
  | [], acc => .ok acc
  | it :: rest, acc =>
    match it with
    | .nonDict => .error "AttributeError: object has no attribute get"
    | .obj o =>
      match parse_ruff_item o with
      | none => parse_ruff_go rest acc
      | some e => parse_ruff_go rest (acc ++ [e])

/-- `parse_ruff` from `parse_logs.py`. A `.error` result models an
uncaught exception (the `try` block only guards the file read and JSON
decode, not the item loop). -/
def parse_ruff : RuffInput → Except String (List LogEntry)
  | .missing => .ok []
  | .invalidJson => .ok []
  | .notList => .ok []
  | .arr items => parse_ruff_go items []

/-- `parse_mypy` from `parse_logs.py`. The compiled regular expression is
modelled by the parameter `lineParse`: for one raw line it yields the
captured `(filepath, line number, message)` groups, or `none` when the
pattern does not match. The literal `"TYPE_ERROR"` tag, the path
normalization, the `strip`/`"Found "` filtering and the `line_no <= 0`
guard are the source's own. -/
def parse_mypy (lineParse : String → Option (String × Int × String))
    (lines : List String) : List LogEntry :=
  lines.filterMap fun raw =>
    let raw := pyStrip raw
    if raw = "" || pyStartsWith raw "Found " then none
    else
      match lineParse raw with
      | none => none
      | some (fp, ln, msg) =>
        if ln ≤ 0 then none
        else some ⟨"TYPE_ERROR", normalize_path fp, ln, pyStrip msg, "mypy", ""⟩

/-- The `crash` object of one pytest test phase: the fields
`parse_pytest` reads, `none` when a key is absent. -/
structure CrashInfo where
  path : Option String
  lineno : Option Int
  message : Option String
deriving DecidableEq, Repr

/-- One record of the pytest-json-report `tests` array. A phase's crash
is `none` when the phase or its `crash` key is absent or the crash dict
is empty (all falsy for `if crash:`); `longrepr` fields are `none` when
absent, and the empty string is falsy for `if longrepr:`. -/
structure TestRec where
  nodeid : Option String
  outcome : Option String
  callCrash : Option CrashInfo
  setupCrash : Option CrashInfo
  teardownCrash : Option CrashInfo
  callLong : Option String
  setupLong : Option String
  teardownLong : Option String
deriving DecidableEq, Repr

/-- The decoded pytest report: missing file, undecodable JSON, or a
decoded top-level object with its `tests` array (`data.get("tests", [])`;
a missing key yields the empty array). -/
inductive PytestInput where
  | missing
  | invalidJson
  | parsed (tests : List TestRec)

/-- Python `nodeid.split("::")[0]`: the prefix before the first `::`. -/
def splitNodeid (nodeid : String) : String :=
  String.mk (splitHead nodeid.data)
where
  splitHead : List Char → List Char
    | [] => []
    | c :: t => if (':' :: ':' :: []).isPrefixOf (c :: t) then [] else c :: splitHead t

/-- Python `longrepr.strip().split("\n")[-1].strip()`: the last line of
the stripped text, stripped again. -/
def lastLineStripped (longrepr : String) : String :=
  pyStrip (String.mk (((pyStrip longrepr).data.reverse.takeWhile (· ≠ '\n')).reverse))

/-- The per-test body of the `parse_pytest` loop. -/
def parse_pytest_test (t : TestRec) : Option LogEntry :=
  let outcome := t.outcome.getD ""
  if outcome ≠ "failed" ∧ outcome ≠ "error" then none
  else
    -- phase scan: 'call', then 'setup', then 'teardown'
    let crash? := match t.callCrash with
      | some c => some c
      | none => match t.setupCrash with
        | some c => some c
        | none => t.teardownCrash
    let (file_path, line_no, message) := match crash? with
      | some c =>
        (normalize_path (c.path.getD "unknown"), c.lineno.getD 0,
         c.message.getD "Test assertion failed")
      | none => ("unknown", 0, "Test failed")
    let file_path :=
      if file_path = "unknown" then
        let nodeid := t.nodeid.getD ""
        if pyIn "::" nodeid then normalize_path (splitNodeid nodeid) else file_path
      else file_path
    let message :=
      if pyLen message < 10 then
        let longrepr := match t.callLong with
          | some l => if l ≠ "" then l else (match t.setupLong with
              | some l2 => if l2 ≠ "" then l2 else (t.teardownLong.getD "")
              | none => t.teardownLong.getD "")
          | none => match t.setupLong with
            | some l2 => if l2 ≠ "" then l2 else (t.teardownLong.getD "")
            | none => t.teardownLong.getD ""
        if longrepr ≠ "" then
          let last_line := lastLineStripped longrepr
          if last_line ≠ "" ∧ pyLen message < pyLen last_line then last_line else message
        else message
      else message
    let line_no := if line_no ≤ 0 then 1 else line_no
    some ⟨"LOGIC", file_path, line_no, message, "pytest", ""⟩

/-- `parse_pytest` from `parse_logs.py`. -/
def parse_pytest : PytestInput → List LogEntry
  | .missing => []
  | .invalidJson => []
  | .parsed tests => tests.filterMap parse_pytest_test

/-- The `(file, line, type)` deduplication key of `deduplicate`. -/
def dedupKey (e : LogEntry) : String × Int × String := (e.file, e.line, e.type)

/-- Loop body of `deduplicate` (explicit `seen` set as a list of keys). -/
def dedup_go (seen : List (String × Int × String)) : List LogEntry → List LogEntry
  | [] => []
  | e :: rest =>
    if dedupKey e ∈ seen then dedup_go seen rest
    else e :: dedup_go (seen ++ [dedupKey e]) rest

/-- `deduplicate` from `parse_logs.py`: drop later records sharing a
`(file, line, type)` key with an earlier one. -/
def deduplicate (errors : List LogEntry) : List LogEntry := dedup_go [] errors

/-- `VALID_TYPES` as re-declared locally inside `validate_output`. -/
def VALID_TYPES : List String :=
  ["LINTING", "SYNTAX", "LOGIC", "TYPE_ERROR", "IMPORT", "INDENTATION"]

/-- The per-record body of `validate_output`: drop a record with an
empty `file`, a non-positive `line`, or an out-of-taxonomy `type`;
replace an empty `message` with `"Unknown error"`. (The `isinstance`
checks always succeed in this typed model.) -/
def validate_entry (e : LogEntry) : Option LogEntry :=
  if e.file = "" then none
  else if e.line ≤ 0 then none
  else if ¬ (e.type ∈ VALID_TYPES) then none
  else if e.message = "" then some { e with message := "Unknown error" }
  else some e

/-- `validate_output` from `parse_logs.py`. -/
def validate_output (errors : List LogEntry) : List LogEntry :=
  errors.filterMap validate_entry

/-- The Python `sort` key comparison of `main`:
`(e["file"], e["line"])` tuples compared ascending. -/
def entryLe (a b : LogEntry) : Bool :=
  lexLt a.file.data b.file.data || (a.file = b.file && a.line ≤ b.line)

/-- `main` from `parse_logs.py` (the aggregation pipeline after argument
parsing, up to the JSON dump): parse the three tool outputs, concatenate
in ruff → mypy → pytest order, deduplicate, validate, and sort by
`(file, line)`. -/
def aggregate_main (ruffIn : RuffInput)
    (mypyLineParse : String → Option (String × Int × String)) (mypyLines : List String)
    (pytestIn : PytestInput) : Except String (List LogEntry) :=
  match parse_ruff ruffIn with
  | .error e => .error e
  | .ok ruffErrors =>
    let all_errors := ruffErrors ++ parse_mypy mypyLineParse mypyLines ++ parse_pytest pytestIn
    let unique_errors := deduplicate all_errors
    let valid_errors := validate_output unique_errors
    .ok (valid_errors.mergeSort entryLe)

/-! ### Agent-side error parsing (`error_parser.py`) -/

/-- A `ParsedError` (TypedDict) from `error_parser.py`. -/
structure ParsedError where
  file_path : String
  line_number : Int
  bug_type : String
  raw_message : String
  rule_code : Option String
deriving DecidableEq, Repr

/-- One record of the decoded `errors.json` array as read by
`parse_errors_json`: a JSON object with the fields the function reads
(`none` when a key is absent), or a non-object value (skipped by the
`isinstance` check). As in `RuffObj`, field values of other JSON types
(for example a non-numeric `line`, on which `int()` raises) are outside
this model. -/
inductive ErrItem where
  | obj (file : Option String) (line : Option Int) (message : Option String)
        (source : Option String) (rule_code : Option String)
  | nonDict
deriving DecidableEq, Repr

/-- The decoded `errors.json` file as seen by `parse_errors_json`. -/
inductive ErrInput where
  | missing
  | invalidJson
  | notList
  | arr (items : List ErrItem)

/-- `parse_errors_json` from `error_parser.py`: a missing file,
undecodable JSON or a non-list top level yield zero findings; non-dict
records are skipped; records with a falsy `file` or `message` are
skipped; the kept record is classified with `classify_bug_type` over the
raw record's fields. -/
def parse_errors_json : ErrInput → List ParsedError
  | .missing => []
  | .invalidJson => []
  | .notList => []
  | .arr items =>
    items.filterMap fun it =>
      match it with
      | .nonDict => none
      | .obj file line message source rule_code =>
        let file_path := file.getD ""
        let line_number := line.getD 0
        let msg := message.getD ""
        if file_path = "" ∨ msg = "" then none
        else
          some ⟨file_path, line_number,
                classify_bug_type ⟨source.getD "", msg, rule_code.getD ""⟩,
                msg, rule_code⟩

/-! ### Fix-strategy engine (`fix_generator.py`)

The LLM returns text that `parse_llm_response` decodes into a list of
JSON values. A scalar JSON value is modelled by `JVal`; container values
(arrays/objects in a field position) are unhashable or unorderable in the
places the engine uses them and are outside this model. -/

/-- A scalar JSON value in a fix-object field. -/
inductive JVal where
  | jstr (s : String)
  | jint (n : Int)
  | jbool (b : Bool)
  | jnull
deriving DecidableEq, Repr

/-- Python `str(v)` of a scalar JSON value (used by f-string
interpolation in `normalize_fix`). -/
def pyStr : JVal → String
  | .jstr s => s
  | .jint n => toString n
  | .jbool b => if b then "True" else "False"
  | .jnull => "None"

/-- Python `==` on scalar JSON values: `True == 1`, `False == 0`, and
values of unrelated types compare unequal. This is the equality used by
`set` membership for coverage and deduplication keys. -/
def pyEq : JVal → JVal → Bool
  | .jstr a, .jstr b => a = b
  | .jint a, .jint b => a = b
  | .jbool a, .jbool b => a = b
  | .jbool a, .jint b => (if a then (1 : Int) else 0) = b
  | .jint a, .jbool b => a = (if b then (1 : Int) else 0)
  | .jnull, .jnull => true
  | _, _ => false

/-- A fix object as a partial record: each field is `none` when the key
is absent from the JSON object. (`original_code` and `fixed_code` are
carried for completeness; the engine's private marker keys
`_already_applied` / `_blank_lines_to_add` are not consumed by any
modelled code path.) -/
structure FixDict where
  file_path : Option JVal
  line_number : Option JVal
  bug_type : Option JVal
  fix_description : Option JVal
  original_code : Option JVal
  fixed_code : Option JVal
  commit_message : Option JVal
deriving DecidableEq, Repr

/-- One element of the list returned by `parse_llm_response`: a JSON
object, or a non-object value (on which `dict.get` raises). -/
inductive JItem where
  | jdict (d : FixDict)
  | jnondict (v : JVal)
deriving DecidableEq, Repr

/-- Python `fix["bug_type"] in VALID_BUG_TYPES` for an optional field
value: only a string belonging to the closed set is a member. -/
def inValidBugTypes : Option JVal → Bool
  | some (.jstr s) => s ∈ VALID_BUG_TYPES
  | _ => false

/-- The commit message `normalize_fix` synthesizes:
`f"[AI-AGENT] Fix <bug_type> error in <file_path>"` with `dict.get`
defaults. -/
def synthCommitMessage (f : FixDict) : String :=
  commitTag ++ " Fix " ++ pyStr ((f.bug_type).getD (.jstr "LINTING")) ++
    " error in " ++ pyStr ((f.file_path).getD (.jstr "unknown"))

/-- `normalize_fix` from `fix_generator.py`. A non-object argument makes
`fix.get` raise; a present non-string `commit_message` makes
`.startswith` raise. Otherwise an invalid `bug_type` is coerced to
`"LINTING"` and a missing prefix is synthesized. -/
def normalize_fix : JItem → Except String FixDict
  | .jnondict _ => .error "AttributeError: object has no attribute get"
  | .jdict f =>
    let f := if inValidBugTypes f.bug_type then f
             else { f with bug_type := some (.jstr "LINTING") }
    match f.commit_message with
    | some (.jstr s) =>
      if pyStartsWith s commitTag then .ok f
      else .ok { f with commit_message := some (.jstr (synthCommitMessage f)) }
    | some _ => .error "AttributeError: object has no attribute startswith"
    | none => .ok { f with commit_message := some (.jstr (synthCommitMessage f)) }

/-- `validate_fix` from `fix_generator.py`: required keys present,
`bug_type` in the closed set, `commit_message` starting with the commit
prefix. `fix["commit_message"].startswith` raises on a non-string value
(reachable only for unnormalized input). -/
def validate_fix (f : FixDict) : Except String Bool :=
  if f.file_path.isNone ∨ f.line_number.isNone ∨ f.bug_type.isNone ∨
     f.fix_description.isNone ∨ f.commit_message.isNone then .ok false
  else if ¬ inValidBugTypes f.bug_type then .ok false
  else
    match f.commit_message with
    | some (.jstr s) => .ok (pyStartsWith s commitTag)
    | some _ => .error "AttributeError: object has no attribute startswith"
    | none => .ok false

/-- The validate-and-append loop shared by the LLM stage and the
rule-based stage of `generate_fixes`
(`fix = normalize_fix(fix); if validate_fix(fix): validated.append(fix)`). -/
def validate_loop : List JItem → List FixDict → Except String (List FixDict)
  | [], acc => .ok acc
  | c :: rest, acc =>
    match normalize_fix c with
    | .error e => .error e
    | .ok nf =>
      match validate_fix nf with
      | .error e => .error e
      | .ok true => validate_loop rest (acc ++ [nf])
      | .ok false => validate_loop rest acc

/-! #### Provider selection and `call_llm` -/

/-- The provider-related configuration values read from `config.py`
(environment variables, stripped; an unset variable is the empty string,
which is falsy). -/
structure Config where
  LLM_PROVIDER : String
  GROQ_API_KEY : String
  GOOGLE_API_KEY : String
  ANTHROPIC_API_KEY : String
  OPENAI_API_KEY : String
deriving DecidableEq, Repr

/-- The provider list `call_llm` builds: the configured primary first,
then every other provider with a key as fallback, each at most once. -/
def llm_providers (cfg : Config) : List String :=
  let ps : List String := []
  let ps := if cfg.LLM_PROVIDER = "groq" ∧ cfg.GROQ_API_KEY ≠ "" then ps ++ ["groq"] else ps
  let ps := if cfg.LLM_PROVIDER = "google" ∧ cfg.GOOGLE_API_KEY ≠ "" then ps ++ ["google"] else ps
  let ps := if cfg.LLM_PROVIDER = "anthropic" ∧ cfg.ANTHROPIC_API_KEY ≠ "" then
              ps ++ ["anthropic"] else ps
  let ps := if cfg.LLM_PROVIDER = "openai" ∧ cfg.OPENAI_API_KEY ≠ "" then ps ++ ["openai"] else ps
  let ps := if cfg.GROQ_API_KEY ≠ "" ∧ ¬ ps.contains "groq" then ps ++ ["groq"] else ps
  let ps := if cfg.GOOGLE_API_KEY ≠ "" ∧ ¬ ps.contains "google" then ps ++ ["google"] else ps
  let ps := if cfg.ANTHROPIC_API_KEY ≠ "" ∧ ¬ ps.contains "anthropic" then
              ps ++ ["anthropic"] else ps
  let ps := if cfg.OPENAI_API_KEY ≠ "" ∧ ¬ ps.contains "openai" then ps ++ ["openai"] else ps
  ps

/-- The provider fallback loop of `call_llm`: try each provider in turn,
returning the first response that is not an `[LLM_ERROR]` marker, or the
last error text when all fail. `providerText` models the provider call
functions (`call_groq` etc. catch their own exceptions and return
`[LLM_ERROR] ...` strings, so the calls themselves never raise). -/
def llm_try_loop (providerText : String → String) : List String → String → String
  | [], last => last
  | name :: rest, _ =>
    let result := providerText name
    if pyStartsWith result "[LLM_ERROR]" then llm_try_loop providerText rest result
    else result

/-- The `RuntimeError` message raised by `call_llm` when no provider is
configured. -/
def noProviderMsg : String :=
  "No LLM API key configured. Set GROQ_API_KEY, OPENAI_API_KEY, ANTHROPIC_API_KEY, or GOOGLE_API_KEY."

/-- `call_llm` from `fix_generator.py`: raises `RuntimeError` when no
provider has a key; otherwise runs the fallback loop. -/
def call_llm (cfg : Config) (providerText : String → String) : Except String String :=
  let providers := llm_providers cfg
  if providers = [] then .error noProviderMsg
  else .ok (llm_try_loop providerText providers "")

/-! #### `generate_fixes` pipeline -/

/-- The coverage key of a validated LLM fix:
`(f.get("file_path"), f.get("line_number"))` without defaults. -/
def coveredKey (f : FixDict) : Option JVal × Option JVal := (f.file_path, f.line_number)

/-- Python `==` on optional scalar values (also covers the `None` that a
missing key contributes to a tuple). -/
def pyEqOpt : Option JVal → Option JVal → Bool
  | some a, some b => pyEq a b
  | none, none => true
  | _, _ => false

/-- Python `==` on coverage-key pairs. -/
def pyEqKey (a b : Option JVal × Option JVal) : Bool := pyEqOpt a.1 b.1 && pyEqOpt a.2 b.2

/-- The key a `ParsedError` contributes when tested against the coverage
set: `(e.get("file_path"), e.get("line_number"))`, always a string and an
integer for a typed `ParsedError`. -/
def errKey (e : ParsedError) : Option JVal × Option JVal :=
  (some (.jstr e.file_path), some (.jint e.line_number))

/-- `uncovered` from `generate_fixes`: the errors whose
`(file_path, line_number)` key is not in the coverage set of the
validated LLM fixes. -/
def uncovered_errors (errors : List ParsedError) (validated : List FixDict) :
    List ParsedError :=
  errors.filter fun e => ¬ (validated.any fun f => pyEqKey (coveredKey f) (errKey e))

/-- The rule-based supplement loop of `generate_fixes`: for each
uncovered error, run the rule generator and validate-and-append each of
its fixes. The file-reading, regular-expression-driven
`_generate_rule_fixes` itself is modelled by the parameter `ruleGen`
(theorems quantify over every possible behaviour of it). -/
def rule_loop (ruleGen : ParsedError → List JItem) :
    List ParsedError → List FixDict → Except String (List FixDict)
  | [], acc => .ok acc
  | e :: rest, acc =>
    match validate_loop (ruleGen e) acc with
    | .error msg => .error msg
    | .ok acc2 => rule_loop ruleGen rest acc2

/-- The deduplication key of `generate_fixes`:
`(fix.get("file_path", ""), fix.get("line_number", 0))`. -/
def dedupFixKey (f : FixDict) : JVal × JVal :=
  (f.file_path.getD (.jstr ""), f.line_number.getD (.jint 0))

/-- Python `==` on deduplication-key pairs. -/
def pyEqKey2 (a b : JVal × JVal) : Bool := pyEq a.1 b.1 && pyEq a.2 b.2

/-- Loop body of the final deduplication of `generate_fixes`
(explicit `seen` set as a list of keys). -/
def dedupFixes_go (seen : List (JVal × JVal)) : List FixDict → List FixDict
  | [] => []
  | f :: rest =>
    if seen.any (pyEqKey2 (dedupFixKey f)) then dedupFixes_go seen rest
    else f :: dedupFixes_go (seen ++ [dedupFixKey f]) rest

/-- The final deduplication of `generate_fixes`: keep the first fix per
`(file_path, line_number)` key. -/
def dedupFixes (fixes : List FixDict) : List FixDict := dedupFixes_go [] fixes

/-- The fix object `_ruff_autofix_fallback` builds for one error (all
fields literal; the `_already_applied` marker is not modelled). -/
def mkAutoFix (e : ParsedError) : FixDict where
  file_path := some (.jstr e.file_path)
  line_number := some (.jint e.line_number)
  bug_type := some (.jstr e.bug_type)
  fix_description := some (.jstr ("auto-fixed by ruff: " ++ pyTake e.raw_message 80))
  original_code := some (.jstr "")
  fixed_code := some (.jstr "[auto-fixed by ruff]")
  commit_message :=
    some (.jstr (commitTag ++ " Auto-fix " ++ pyTake e.raw_message 50 ++ " in " ++ e.file_path))

/-- `_ruff_autofix_fallback` from `fix_generator.py`. The subprocess run
of `ruff check --fix` and the `re.search("Fixed (\\d+)", output)` on its
output are modelled by `ruffFixedCount`: `some n` when the combined
output matched with count `n`, `none` when it did not match or the
subprocess raised (both paths return zero fixes). -/
def ruff_autofix_fallback (errors : List ParsedError) (ruffFixedCount : Option Nat) :
    List FixDict :=
  let linting := errors.filter fun e =>
    pyStartsWith e.raw_message "F" || pyStartsWith e.raw_message "E" ||
    pyStartsWith e.raw_message "W" || pyStartsWith e.raw_message "I"
  if linting = [] then []
  else
    match ruffFixedCount with
    | none => []
    | some count => (linting.take count).map mkAutoFix

/-- The LLM stage of `generate_fixes`: call the provider chain, decode
the response (`parse` models `parse_llm_response`), then validate and
normalize each candidate. -/
def llm_validated (cfg : Config) (providerText : String → String)
    (parse : String → List JItem) : Except String (List FixDict) :=
  match call_llm cfg providerText with
  | .error e => .error e
  | .ok raw_response => validate_loop (parse raw_response) []

/-- `generate_fixes` from `fix_generator.py`: the layered LLM →
rule-based → ruff-autofix strategy pipeline.

External behaviour enters as parameters: `providerText` (the provider
call results), `parse` (what `parse_llm_response` decodes the raw
response text to), `ruleGen` (`_generate_rule_fixes`, which reads the
repository's files), and `ruffFixedCount` (the subprocess fallback).
The prompt built by `_build_user_prompt` only feeds the opaque provider
call, so it is not modelled separately. -/
def generate_fixes (cfg : Config) (providerText : String → String)
    (parse : String → List JItem) (ruleGen : ParsedError → List JItem)
    (ruffFixedCount : Option Nat) (errors : List ParsedError) (repo_path : String) :
    Except String (List FixDict) :=
  if errors = [] then .ok []
  else
    match llm_validated cfg providerText parse with
    | .error e => .error e
    | .ok validated =>
      match rule_loop ruleGen (uncovered_errors errors validated) validated with
      | .error e => .error e
      | .ok validated2 =>
        let deduped := dedupFixes validated2
        if deduped = [] ∧ repo_path ≠ "" then
          .ok (ruff_autofix_fallback errors ruffFixedCount)
        else .ok deduped

/-! #### Scope analysis (`_find_function_scope`, `_fix_e741_scope_aware`) -/

/-- `len(line) - len(line.lstrip())`: the leading-whitespace count. -/
def indentOf (line : String) : Nat := pyLen line - pyLen (pyLStrip line)

/-- `stripped.startswith(("def ", "async def "))` on the lstripped line. -/
def isDefLine (line : String) : Bool :=
  pyStartsWith (pyLStrip line) "def " || pyStartsWith (pyLStrip line) "async def "

/-- The backward walk of `_find_function_scope`:
`for i in range(target_idx, -1, -1)` looking for a `def` line. -/
def find_def_back (lines : List String) : Nat → Option Nat
  | 0 => if isDefLine (lines.getD 0 "") then some 0 else none
  | i + 1 => if isDefLine (lines.getD (i + 1) "") then some (i + 1) else find_def_back lines i

/-- The forward walk of `_find_function_scope` with explicit fuel
(`fuel = len(lines) - i` suffices to reach the end of the loop range):
skip blank lines, stop at the first line whose indentation returns to or
below the `def` line's level, default to `len(lines)`. -/
def find_scope_end_aux (lines : List String) (indent_level : Nat) :
    Nat → Nat → Nat
  | 0, _ => lines.length
  | fuel + 1, i =>
    if i < lines.length then
      let line := lines.getD i ""
      if pyStrip line = "" then find_scope_end_aux lines indent_level fuel (i + 1)
      else if indentOf line ≤ indent_level then i
      else find_scope_end_aux lines indent_level fuel (i + 1)
    else lines.length

/-- The forward walk of `_find_function_scope`, starting at index `i`. -/
def find_scope_end (lines : List String) (indent_level : Nat) (i : Nat) : Nat :=
  find_scope_end_aux lines indent_level (lines.length + 1 - i) i

/-- `_find_function_scope` from `fix_generator.py`. The 0-based target
index is an `Int` because the caller passes `line_number - 1`, which is
`-1` for a `line_number` of `0` (the backward `range` is then empty and
no `def` is found). -/
def find_function_scope (lines : List String) (target_idx : Int) : Nat × Nat :=
  match (if target_idx < 0 then none else find_def_back lines target_idx.toNat) with
  | some scope_start =>
    (scope_start,
     find_scope_end lines (indentOf (lines.getD scope_start "")) (scope_start + 1))
  | none => (0, lines.length)

/-- `rename_map.get(var, f"{var}_var")` from `_fix_e741_scope_aware`. -/
def rename_map (var : String) : String :=
  if var = "l" then "length"
  else if var = "O" then "output"
  else if var = "I" then "index"
  else if var = "o" then "obj"
  else if var = "i" then "idx"
  else var ++ "_var"

/-- `_fix_e741_scope_aware` from `fix_generator.py`. The regular
expressions are modelled by parameters: `varMatch` extracts the
ambiguous variable name from the error message (`None` when the pattern
does not match), `hasVar var line` models `pat.search(line)` for the
word-boundary pattern of `var`, and `subVar var renamed line` models
`pat.sub(renamed, line)`. `lines` is the file content read by
`_read_file_lines` (empty when the file is unreadable). -/
def fix_e741_scope_aware (varMatch : String → Option String)
    (hasVar : String → String → Bool) (subVar : String → String → String → String)
    (lines : List String) (err : ParsedError) : List FixDict :=
  match varMatch err.raw_message with
  | none => []
  | some var =>
    let renamed := rename_map var
    if lines = [] then []
    else
      let scope := find_function_scope lines (err.line_number - 1)
      (List.range' scope.1 (scope.2 - scope.1)).filterMap fun i =>
        let line := lines.getD i ""
        if hasVar var line then
          let original := pyRStripChar line '\n'
          let fixed := subVar var renamed original
          if original ≠ fixed then
            some ⟨some (.jstr err.file_path), some (.jint (Int.ofNat (i + 1))),
                  some (.jstr "LINTING"),
                  some (.jstr ("rename \x27" ++ var ++ "\x27 to \x27" ++ renamed ++
                               "\x27 (scope-aware)")),
                  some (.jstr (pyStrip original)), some (.jstr (pyStrip fixed)),
                  some (.jstr (commitTag ++ " Rename variable " ++ var ++ " to " ++ renamed ++
                               " in " ++ err.file_path))⟩
          else none
        else none

/-- The Fix invariant of the specification: a string `bug_type` in the
closed set and a string `commit_message` carrying the commit prefix. -/
def goodFix (f : FixDict) : Prop :=
  (∃ b, f.bug_type = some (.jstr b) ∧ b ∈ VALID_BUG_TYPES) ∧
  (∃ c, f.commit_message = some (.jstr c) ∧ pyStartsWith c commitTag = true)

/-!
## Theorems

Helper lemmas first, then one theorem per specification claim
(with its witness or counterexample).
-/

/-! ### String-order helper lemmas -/

theorem lexLt_conn (a : List Char) : ∀ b, lexLt a b = false → lexLt b a = false → a = b := by
  induction a with
  | nil => intro b; cases b <;> simp [lexLt]
  | cons x xs ih =>
    intro b
    cases b with
    | nil => simp [lexLt]
    | cons y ys =>
      simp only [lexLt]
      by_cases hxy : x < y
      · simp [hxy]
      · by_cases hyx : y < x
        · simp [hyx]
        · have hxy2 : x = y := le_antisymm (not_lt.mp hyx) (not_lt.mp hxy)
          subst hxy2
          simp [hxy]
          exact ih ys

theorem lexLt_trans (a : List Char) :
    ∀ b c, lexLt a b = true → lexLt b c = true → lexLt a c = true := by
  induction a with
  | nil =>
    intro b c _ _
    cases c with
    | nil => cases b <;> simp_all [lexLt]
    | cons z zs => simp [lexLt]
  | cons x xs ih =>
    intro b c
    cases b with
    | nil => simp [lexLt]
    | cons y ys =>
      cases c with
      | nil => simp [lexLt]
      | cons z zs =>
        simp only [lexLt]
        by_cases h1 : x < y <;> by_cases h2 : y < z
        · simp [lt_trans h1 h2]
        · by_cases h3 : y = z
          · subst h3; simp [h1]
          · simp [h2, h3]
        · by_cases h3 : x = y
          · subst h3; simp [h2, h1]
          · simp [h1, h3]
        · by_cases h3 : x = y <;> by_cases h4 : y = z
          · subst h3; subst h4; simp [h1]; exact ih _ _
          · simp [h3, h4, h1, h2]
          · subst h4; simp [h1, h3]
          · simp [h1, h3]

theorem classify_bug_type_mem_valid (err : RawErr) :
    classify_bug_type err ∈ VALID_BUG_TYPES := by
  unfold classify_bug_type VALID_BUG_TYPES
  simp only []
  split_ifs <;> simp

/-! ### C1 — repair-loop continuation decision -/

/-- C1: `should_continue` routes to `save_results` (state Done) if and
only if `all_passed` is true, or `current_iteration >= max_iterations`,
or `stagnant_count >= 2`; `analyze_logs` increments `stagnant_count`
when the latest error count is `>=` the previous one and resets it to 0
otherwise; and for an `error_count_history` of `[5, 5, 5]` the counter
reaches 2 at the third entry, so `should_continue` takes the terminal
branch even with `current_iteration = 2 < max_iterations = 5`. -/
theorem C1_should_continue_termination :
    (∀ (ap : Bool) (it mx st : Nat),
        should_continue ap it mx st = "save_results" ↔ (ap = true ∨ mx ≤ it ∨ 2 ≤ st))
    ∧ run_history [5, 5, 5] = ([5, 5, 5], 2)
    ∧ should_continue false 2 5 2 = "save_results" ∧ (2 : Nat) < 5 := by
  refine ⟨?_, by decide, by decide, by decide⟩
  intro ap it mx st
  unfold should_continue
  split_ifs with h1 h2 h3
  · simp [h1]
  · simp [h1, h2]
  · simp [h1, h2, h3]
  · simp only [Bool.not_eq_true] at h1
    simp [h1, h2, h3]

/-! ### C4 — fatal configuration error when no provider is configured -/

/-- C4: when no API key is set for any provider, `generate_fixes` on a
non-empty error list propagates the `RuntimeError` raised by `call_llm`
(it does not silently return an empty fix list), whatever the other
inputs are. -/
theorem C4_no_provider_fatal (cfg : Config) (providerText : String → String)
    (parse : String → List JItem) (ruleGen : ParsedError → List JItem)
    (ruffFixedCount : Option Nat) (errors : List ParsedError) (repo_path : String)
    (hg : cfg.GROQ_API_KEY = "") (hgo : cfg.GOOGLE_API_KEY = "")
    (ha : cfg.ANTHROPIC_API_KEY = "") (ho : cfg.OPENAI_API_KEY = "")
    (hne : errors ≠ []) :
    generate_fixes cfg providerText parse ruleGen ruffFixedCount errors repo_path =
      .error noProviderMsg := by
  have hprov : llm_providers cfg = [] := by
    unfold llm_providers
    simp [hg, hgo, ha, ho]
  unfold generate_fixes llm_validated call_llm
  simp [hne, hprov]

/-- Witness for C4 at a concrete configuration and error list. -/
theorem C4_no_provider_fatal_witness :
    generate_fixes ⟨"groq", "", "", "", ""⟩ (fun _ => "") (fun _ => []) (fun _ => []) none
      [⟨"a.py", 1, "LINTING", "m", none⟩] "" = .error noProviderMsg :=
  C4_no_provider_fatal _ _ _ _ _ _ _ rfl rfl rfl rfl (by decide)

/-! ### C5 — type-checker findings and classifier totality -/

/-- C5 counterexample: `classify_bug_type` has no branch for the
type-checker source `mypy`; a mypy name-error finding falls through to
the keyword fallback and is classified LINTING, not TYPE_ERROR. -/
theorem C5_counterexample :
    classify_bug_type ⟨"mypy", "Name foo is not defined", ""⟩ = "LINTING" ∧
    ("LINTING" : String) ≠ "TYPE_ERROR" := by decide

/-- C5 (amended): every finding `parse_mypy` emits is tagged TYPE_ERROR
with source `mypy` (so aggregator-produced type-checker records carry
TYPE_ERROR), and `classify_bug_type` is total — it always returns a
member of the closed bug-type set — but it classifies a mypy-source
finding by the generic message fallback, not unconditionally as
TYPE_ERROR. -/
theorem C5_type_checker_classification :
    (∀ (lp : String → Option (String × Int × String)) (lines : List String),
       ∀ e ∈ parse_mypy lp lines, e.type = "TYPE_ERROR" ∧ e.source = "mypy")
    ∧ (∀ err : RawErr, classify_bug_type err ∈ VALID_BUG_TYPES) := by
  constructor
  · intro lp lines e he
    unfold parse_mypy at he
    obtain ⟨raw, -, h⟩ := List.mem_filterMap.mp he
    dsimp only at h
    split at h
    · simp at h
    · split at h
      · simp at h
      · split at h
        · simp at h
        · cases h
          exact ⟨rfl, rfl⟩
  · exact classify_bug_type_mem_valid

/-- Witness for C5 at a concrete mypy line and finding. -/
theorem C5_type_checker_classification_witness :
    (⟨"TYPE_ERROR", "a.py", 3, "msg", "mypy", ""⟩ : LogEntry).type = "TYPE_ERROR" ∧
    (⟨"TYPE_ERROR", "a.py", 3, "msg", "mypy", ""⟩ : LogEntry).source = "mypy" :=
  C5_type_checker_classification.1 (fun _ => some ("a.py", 3, "msg"))
    ["a.py:3:1: error: msg"] ⟨"TYPE_ERROR", "a.py", 3, "msg", "mypy", ""⟩ (by decide)

/-! ### C6 — test-runner message classification chain -/

/-- C6 counterexample: the pytest message `assert result == expected`
contains none of the exception-name keywords, yet `classify_bug_type`
returns TYPE_ERROR (because the first rule also fires on the word
`expected`), not LOGIC as the claim requires. -/
theorem C6_counterexample :
    classify_bug_type ⟨"pytest", "assert result == expected", ""⟩ = "TYPE_ERROR" ∧
    pyIn "typeerror" (pyLower "assert result == expected") = false ∧
    pyIn "syntaxerror" (pyLower "assert result == expected") = false ∧
    pyIn "importerror" (pyLower "assert result == expected") = false ∧
    pyIn "modulenotfounderror" (pyLower "assert result == expected") = false ∧
    pyIn "indentationerror" (pyLower "assert result == expected") = false ∧
    ("TYPE_ERROR" : String) ≠ "LOGIC" := by decide

/-- C6 (amended): for every test-runner finding the classifier applies
the priority chain in order with first match winning, where the first
rule fires on `TypeError` and additionally on the phrases `type error`
and `expected`; then `SyntaxError` gives SYNTAX,
`ImportError`/`ModuleNotFoundError` give IMPORT, `IndentationError`
gives INDENTATION, and every remaining message is LOGIC. -/
theorem C6_pytest_chain (message rule_code : String) :
    classify_bug_type ⟨"pytest", message, rule_code⟩ = pytestChainSpec message := by
  unfold classify_bug_type pytestChainSpec
  dsimp only
  rw [if_neg (by decide), if_pos (by decide)]
  split_ifs <;> rfl

/-! ### C8 — record-validation invariant -/

/-- C8 counterexample: `parse_errors_json` keeps a record whose line
number is 0 (it never checks `line_number > 0`), and it drops a record
whose only defect is an empty message instead of keeping it with the
placeholder `"Unknown error"`. -/
theorem C8_counterexample :
    parse_errors_json
        (.arr [.obj (some "a.py") (some 0) (some "boom") (some "ruff") none]) =
      [⟨"a.py", 0, "LINTING", "boom", none⟩] ∧
    ¬ (0 : Int) < (⟨"a.py", 0, "LINTING", "boom", none⟩ : ParsedError).line_number ∧
    parse_errors_json
        (.arr [.obj (some "a.py") (some 5) (some "") (some "ruff") none]) = [] := by
  decide

/-- C8 (amended): every record surviving the aggregator's
`validate_output` has a non-empty `file`, a positive `line` and a
`type` in the closed set, and a record whose only defect is an empty
message survives with the message replaced by `"Unknown error"`; the
agent-side `parse_errors_json`, however, only guarantees a non-empty
`file_path` and an in-taxonomy `bug_type` — it drops empty-message
records outright and performs no `line_number` check. -/
theorem C8_validation_invariant :
    (∀ l, ∀ e ∈ validate_output l, e.file ≠ "" ∧ 0 < e.line ∧ e.type ∈ VALID_TYPES)
    ∧ (∀ l, ∀ e ∈ l, e.file ≠ "" → 0 < e.line → e.type ∈ VALID_TYPES → e.message = "" →
        ({ e with message := "Unknown error" } : LogEntry) ∈ validate_output l)
    ∧ (∀ inp, ∀ p ∈ parse_errors_json inp, p.file_path ≠ "" ∧ p.bug_type ∈ VALID_BUG_TYPES) := by
  refine ⟨?_, ?_, ?_⟩
  · intro l e he
    unfold validate_output at he
    obtain ⟨a, -, h⟩ := List.mem_filterMap.mp he
    unfold validate_entry at h
    split_ifs at h with h1 h2 h3 h4
    · rw [Option.some.injEq] at h
      subst h
      refine ⟨h1, ?_, h3⟩
      dsimp only
      omega
    · rw [Option.some.injEq] at h
      subst h
      exact ⟨h1, by omega, h3⟩
  · intro l e he h1 h2 h3 h4
    unfold validate_output
    refine List.mem_filterMap.mpr ⟨e, he, ?_⟩
    unfold validate_entry
    rw [if_neg h1, if_neg (by omega), if_neg (not_not.mpr h3), if_pos h4]
  · intro inp p hp
    cases inp with
    | missing => simp [parse_errors_json] at hp
    | invalidJson => simp [parse_errors_json] at hp
    | notList => simp [parse_errors_json] at hp
    | arr items =>
      unfold parse_errors_json at hp
      obtain ⟨it, -, h⟩ := List.mem_filterMap.mp hp
      cases it with
      | nonDict => simp at h
      | obj file line message source rule_code =>
        dsimp only at h
        split_ifs at h with hcond
        · rw [Option.some.injEq] at h
          subst h
          push_neg at hcond
          exact ⟨hcond.1, classify_bug_type_mem_valid _⟩

/-- Witness for C8: a valid entry with an empty message survives
`validate_output` with the placeholder message. -/
theorem C8_validation_invariant_witness :
    (⟨"LINTING", "a.py", 1, "Unknown error", "ruff", ""⟩ : LogEntry) ∈
      validate_output [⟨"LINTING", "a.py", 1, "", "ruff", ""⟩] :=
  C8_validation_invariant.2.1 [⟨"LINTING", "a.py", 1, "", "ruff", ""⟩]
    ⟨"LINTING", "a.py", 1, "", "ruff", ""⟩ (by decide) (by decide) (by decide)
    (by decide) (by decide)

/-! ### C9 — parser tolerance of missing/malformed input -/

/-- C9 counterexample: `parse_ruff` raises `AttributeError` on an array
whose element is not a JSON object (`item.get` on a non-dict), instead
of skipping the malformed record. -/
theorem C9_counterexample :
    parse_ruff (.arr [.nonDict]) =
      .error "AttributeError: object has no attribute get" := rfl

/-- C9 (amended): a missing file, undecodable JSON, or a non-list top
level yields zero findings for `parse_ruff`, `parse_errors_json` and
`parse_pytest`, and `parse_errors_json` skips non-dict records; but the
parsers are not total — `parse_ruff` raises on a non-dict array element
(see the counterexample), so "never raises" does not hold. -/
theorem C9_parser_tolerance :
    (parse_ruff .missing = .ok [] ∧ parse_ruff .invalidJson = .ok [] ∧
     parse_ruff .notList = .ok [])
    ∧ (parse_errors_json .missing = [] ∧ parse_errors_json .invalidJson = [] ∧
       parse_errors_json .notList = [])
    ∧ (∀ items, parse_errors_json (.arr (.nonDict :: items)) = parse_errors_json (.arr items))
    ∧ (parse_pytest .missing = [] ∧ parse_pytest .invalidJson = []) := by
  refine ⟨⟨rfl, rfl, rfl⟩, ⟨rfl, rfl, rfl⟩, ?_, rfl, rfl⟩
  intro items
  rfl

/-! ### C10 — scope-boundary heuristic invariants -/

theorem find_def_back_le (lines : List String) :
    ∀ t s, find_def_back lines t = some s → s ≤ t := by
  intro t
  induction t with
  | zero =>
    intro s h
    unfold find_def_back at h
    split_ifs at h
    · cases h; exact Nat.le_refl 0
  | succ n ih =>
    intro s h
    unfold find_def_back at h
    split_ifs at h
    · cases h; exact Nat.le_refl _
    · exact Nat.le_trans (ih s h) (Nat.le_succ n)

theorem find_scope_end_aux_le_length (lines : List String) (lv : Nat) :
    ∀ fuel i, find_scope_end_aux lines lv fuel i ≤ lines.length := by
  intro fuel
  induction fuel with
  | zero => intro i; exact Nat.le_refl _
  | succ n ih =>
    intro i
    unfold find_scope_end_aux
    dsimp only
    split_ifs with h1 h2 h3
    · exact ih (i + 1)
    · exact Nat.le_of_lt h1
    · exact ih (i + 1)
    · exact Nat.le_refl _

theorem find_scope_end_aux_lower (lines : List String) (lv : Nat) :
    ∀ fuel i, i ≤ find_scope_end_aux lines lv fuel i ∨
      find_scope_end_aux lines lv fuel i = lines.length := by
  intro fuel
  induction fuel with
  | zero => intro i; right; rfl
  | succ n ih =>
    intro i
    unfold find_scope_end_aux
    dsimp only
    split_ifs with h1 h2 h3
    · rcases ih (i + 1) with h | h
      · left; omega
      · right; exact h
    · left; exact Nat.le_refl i
    · rcases ih (i + 1) with h | h
      · left; omega
      · right; exact h
    · right; rfl

/-- C10: for a non-empty line list and a 0-based target index inside it,
`_find_function_scope` returns `(scope_start, scope_end)` with
`scope_start ≤ target_idx` and `scope_start < scope_end ≤ len(lines)`;
consequently, when the error's line number is within the file, every fix
emitted by the scope-aware E741 rename refers to a 1-based line number
inside that window (hence within the file). -/
theorem C10_function_scope_bounds :
    (∀ (lines : List String) (target_idx : Int), lines ≠ [] → 0 ≤ target_idx →
       target_idx < lines.length →
       (find_function_scope lines target_idx).1 ≤ target_idx.toNat ∧
       (find_function_scope lines target_idx).1 < (find_function_scope lines target_idx).2 ∧
       (find_function_scope lines target_idx).2 ≤ lines.length)
    ∧ (∀ (varMatch : String → Option String) (hasVar : String → String → Bool)
         (subVar : String → String → String → String) (lines : List String)
         (err : ParsedError) (fix : FixDict), lines ≠ [] → 1 ≤ err.line_number →
         err.line_number ≤ lines.length →
         fix ∈ fix_e741_scope_aware varMatch hasVar subVar lines err →
         ∃ i : Nat, fix.line_number = some (.jint (Int.ofNat (i + 1))) ∧
           (find_function_scope lines (err.line_number - 1)).1 ≤ i ∧
           i < (find_function_scope lines (err.line_number - 1)).2 ∧
           i + 1 ≤ lines.length) := by
  have main : ∀ (lines : List String) (target_idx : Int), lines ≠ [] → 0 ≤ target_idx →
      target_idx < lines.length →
      (find_function_scope lines target_idx).1 ≤ target_idx.toNat ∧
      (find_function_scope lines target_idx).1 < (find_function_scope lines target_idx).2 ∧
      (find_function_scope lines target_idx).2 ≤ lines.length := by
    intro lines target_idx hne h0 hlt
    have hlen : 0 < lines.length := List.length_pos.mpr hne
    have htn : target_idx.toNat < lines.length := by omega
    unfold find_function_scope
    rw [if_neg (by omega)]
    cases hfb : find_def_back lines target_idx.toNat with
    | none =>
      exact ⟨Nat.zero_le _, hlen, Nat.le_refl _⟩
    | some s =>
      have hs : s ≤ target_idx.toNat := find_def_back_le lines _ s hfb
      dsimp only
      refine ⟨hs, ?_, find_scope_end_aux_le_length lines _ _ _⟩
      rcases find_scope_end_aux_lower lines (indentOf (lines.getD s "")) (lines.length + 1 - (s + 1)) (s + 1) with h | h
      · unfold find_scope_end
        omega
      · unfold find_scope_end
        omega
  refine ⟨main, ?_⟩
  intro varMatch hasVar subVar lines err fix hne h1 h2 hfix
  unfold fix_e741_scope_aware at hfix
  cases hvm : varMatch err.raw_message with
  | none => rw [hvm] at hfix; simp at hfix
  | some var =>
    rw [hvm] at hfix
    dsimp only at hfix
    rw [if_neg hne] at hfix
    obtain ⟨i, hi, hsome⟩ := List.mem_filterMap.mp hfix
    rw [List.mem_range'_1] at hi
    have hscope := main lines (err.line_number - 1) hne (by omega) (by omega)
    refine ⟨i, ?_, ?_, ?_, ?_⟩
    · split_ifs at hsome
      rw [Option.some.injEq] at hsome
      subst hsome
      rfl
    · exact hi.1
    · omega
    · have : (find_function_scope lines (err.line_number - 1)).2 ≤ lines.length := hscope.2.2
      omega

/-- Witness for C10 at a concrete two-line file. -/
theorem C10_function_scope_bounds_witness :
    (find_function_scope ["def f():", "    x = 1"] 1).1 ≤ (1 : Int).toNat ∧
    (find_function_scope ["def f():", "    x = 1"] 1).1 <
      (find_function_scope ["def f():", "    x = 1"] 1).2 ∧
    (find_function_scope ["def f():", "    x = 1"] 1).2 ≤
      (["def f():", "    x = 1"] : List String).length :=
  C10_function_scope_bounds.1 ["def f():", "    x = 1"] 1 (by decide) (by decide) (by decide)

/-! ### Fix-engine helper lemmas -/

theorem pyStartsWith_append (s t : String) : pyStartsWith (s ++ t) s = true := by
  simp [pyStartsWith, String.data_append, List.isPrefixOf_iff_prefix]

theorem inValidBugTypes_spec (v : Option JVal) :
    inValidBugTypes v = true → ∃ b, v = some (.jstr b) ∧ b ∈ VALID_BUG_TYPES := by
  unfold inValidBugTypes
  cases v with
  | none => simp
  | some w => cases w <;> simp

theorem validate_fix_ok_true (f : FixDict) : validate_fix f = .ok true → goodFix f := by
  unfold validate_fix
  intro h
  split_ifs at h with h1 h2
  · simp at h
  · cases hc : f.commit_message with
    | none => rw [hc] at h; simp at h
    | some v =>
      rw [hc] at h
      cases v with
      | jstr s =>
        simp only [Except.ok.injEq] at h
        refine ⟨inValidBugTypes_spec _ h2, s, hc, h⟩
      | jint n => simp at h
      | jbool b => simp at h
      | jnull => simp at h
  · simp at h

theorem validate_loop_good : ∀ (items : List JItem) (acc out : List FixDict),
    validate_loop items acc = .ok out → (∀ f ∈ acc, goodFix f) → ∀ f ∈ out, goodFix f := by
  intro items
  induction items with
  | nil =>
    intro acc out h hacc
    rw [validate_loop, Except.ok.injEq] at h
    subst h
    exact hacc
  | cons c rest ih =>
    intro acc out h hacc
    rw [validate_loop] at h
    cases hn : normalize_fix c with
    | error e =>
      simp only [hn] at h
      exact absurd h (by simp)
    | ok nf =>
      simp only [hn] at h
      cases hv : validate_fix nf with
      | error e =>
        simp only [hv] at h
        exact absurd h (by simp)
      | ok b =>
        simp only [hv] at h
        cases b with
        | true =>
          refine ih _ _ h ?_
          intro f hf
          rcases List.mem_append.mp hf with hf | hf
          · exact hacc f hf
          · rw [List.mem_singleton] at hf
            subst hf
            exact validate_fix_ok_true _ hv
        | false => exact ih _ _ h hacc

theorem rule_loop_good (rg : ParsedError → List JItem) :
    ∀ (es : List ParsedError) (acc out : List FixDict),
    rule_loop rg es acc = .ok out → (∀ f ∈ acc, goodFix f) → ∀ f ∈ out, goodFix f := by
  intro es
  induction es with
  | nil =>
    intro acc out h hacc
    rw [rule_loop, Except.ok.injEq] at h
    subst h
    exact hacc
  | cons e rest ih =>
    intro acc out h hacc
    rw [rule_loop] at h
    cases hv : validate_loop (rg e) acc with
    | error msg =>
      simp only [hv] at h
      exact absurd h (by simp)
    | ok acc2 =>
      simp only [hv] at h
      exact ih _ _ h (validate_loop_good _ _ _ hv hacc)

theorem dedupFixes_go_subset :
    ∀ (l : List FixDict) (seen : List (JVal × JVal)) (f : FixDict),
    f ∈ dedupFixes_go seen l → f ∈ l := by
  intro l
  induction l with
  | nil => intro seen f h; simp [dedupFixes_go] at h
  | cons g rest ih =>
    intro seen f h
    rw [dedupFixes_go] at h
    split_ifs at h with hseen
    · exact List.mem_cons_of_mem g (ih _ f h)
    · rcases List.mem_cons.mp h with h | h
      · subst h; exact List.mem_cons_self _ _
      · exact List.mem_cons_of_mem g (ih _ f h)

theorem llm_validated_good (cfg : Config) (providerText : String → String)
    (parse : String → List JItem) (v : List FixDict) :
    llm_validated cfg providerText parse = .ok v → ∀ f ∈ v, goodFix f := by
  unfold llm_validated
  cases h : call_llm cfg providerText with
  | error e => simp
  | ok raw =>
    intro hv
    exact validate_loop_good _ _ _ hv (by simp)

theorem mkAutoFix_good (e : ParsedError) (hb : e.bug_type ∈ VALID_BUG_TYPES) :
    goodFix (mkAutoFix e) := by
  constructor
  · exact ⟨e.bug_type, rfl, hb⟩
  · refine ⟨commitTag ++ " Auto-fix " ++ pyTake e.raw_message 50 ++ " in " ++ e.file_path,
      rfl, ?_⟩
    rw [String.append_assoc, String.append_assoc, String.append_assoc]
    exact pyStartsWith_append _ _

/-! ### C2 — Fix invariant of the strategy engine -/

/-- C2 counterexample: the LLM response text `[{"commit_message": 5}]`
decodes to one fix object whose `commit_message` is the integer `5`;
`normalize_fix` then calls `.startswith` on it and raises
`AttributeError`, which propagates out of `generate_fixes` — the engine
raises on this malformed fix object instead of normalizing it. -/
theorem C2_counterexample :
    generate_fixes ⟨"groq", "k", "", "", ""⟩ (fun _ => "resp")
      (fun _ => [.jdict ⟨none, none, none, none, none, none, some (.jint 5)⟩])
      (fun _ => []) none [⟨"a.py", 1, "LINTING", "m", none⟩] "" =
      .error "AttributeError: object has no attribute startswith" := rfl

/-- C2 (amended): whenever `generate_fixes` returns a fix list (instead
of raising on a malformed candidate whose `commit_message` is present
but not a string, or which is not a JSON object), every returned fix has
a string `bug_type` in the closed set and a string `commit_message`
starting with `[AI-AGENT]` — an invalid `bug_type` is coerced to LINTING
and a missing prefix is synthesized — provided the input errors carry
in-taxonomy bug types (as those produced by `classify_bug_type` always
do), which the autofix-fallback fixes inherit verbatim. -/
theorem C2_fix_invariant (cfg : Config) (providerText : String → String)
    (parse : String → List JItem) (ruleGen : ParsedError → List JItem)
    (ruffFixedCount : Option Nat) (errors : List ParsedError) (repo_path : String)
    (out : List FixDict)
    (herr : ∀ e ∈ errors, e.bug_type ∈ VALID_BUG_TYPES)
    (h : generate_fixes cfg providerText parse ruleGen ruffFixedCount errors repo_path =
      .ok out) :
    ∀ f ∈ out, goodFix f := by
  unfold generate_fixes at h
  split_ifs at h with hne
  · rw [Except.ok.injEq] at h
    subst h
    simp
  · cases hlv : llm_validated cfg providerText parse with
    | error e =>
      simp only [hlv] at h
      exact absurd h (by simp)
    | ok validated =>
      simp only [hlv] at h
      cases hrl : rule_loop ruleGen (uncovered_errors errors validated) validated with
      | error e =>
        simp only [hrl] at h
        exact absurd h (by simp)
      | ok validated2 =>
        simp only [hrl] at h
        have hv2 : ∀ f ∈ validated2, goodFix f :=
          rule_loop_good _ _ _ _ hrl (llm_validated_good _ _ _ _ hlv)
        split_ifs at h with hfb
        · rw [Except.ok.injEq] at h
          subst h
          intro f hf
          unfold ruff_autofix_fallback at hf
          dsimp only at hf
          split_ifs at hf with hl
          · simp at hf
          · cases ruffFixedCount with
            | none => simp at hf
            | some count =>
              dsimp only at hf
              obtain ⟨e, he, hfe⟩ := List.mem_map.mp hf
              subst hfe
              have he2 : e ∈ errors := List.mem_of_mem_filter (List.mem_of_mem_take he)
              exact mkAutoFix_good e (herr e he2)
        · rw [Except.ok.injEq] at h
          subst h
          intro f hf
          exact hv2 f (dedupFixes_go_subset _ _ f hf)

/-- Witness for C2 on a run in which the LLM returns one valid fix. -/
theorem C2_fix_invariant_witness :
    goodFix ⟨some (.jstr "a.py"), some (.jint 1), some (.jstr "LINTING"),
             some (.jstr "remove import"), none, none,
             some (.jstr "[AI-AGENT] Remove import")⟩ :=
  C2_fix_invariant ⟨"groq", "k", "", "", ""⟩ (fun _ => "resp")
    (fun _ => [.jdict ⟨some (.jstr "a.py"), some (.jint 1), some (.jstr "LINTING"),
               some (.jstr "remove import"), none, none,
               some (.jstr "[AI-AGENT] Remove import")⟩])
    (fun _ => []) none [⟨"a.py", 1, "LINTING", "m", none⟩] ""
    [⟨some (.jstr "a.py"), some (.jint 1), some (.jstr "LINTING"),
      some (.jstr "remove import"), none, none, some (.jstr "[AI-AGENT] Remove import")⟩]
    (by decide) rfl
    ⟨some (.jstr "a.py"), some (.jint 1), some (.jstr "LINTING"),
     some (.jstr "remove import"), none, none, some (.jstr "[AI-AGENT] Remove import")⟩
    (by simp)

/-! ### Deduplication and strategy-priority lemmas (for C3) -/

theorem pyEq_refl (v : JVal) : pyEq v v = true := by
  cases v <;> simp [pyEq]

theorem pyEq_symm (a b : JVal) : pyEq a b = pyEq b a := by
  cases a <;> cases b <;> simp [pyEq, eq_comm]

theorem pyEq_trans (a b c : JVal) : pyEq a b = true → pyEq b c = true → pyEq a c = true := by
  cases a <;> cases b <;> cases c <;> simp_all [pyEq] <;> split_ifs at * <;> simp_all <;> omega

theorem pyEqKey2_refl (k : JVal × JVal) : pyEqKey2 k k = true := by
  simp [pyEqKey2, pyEq_refl]

theorem pyEqKey2_symm (a b : JVal × JVal) : pyEqKey2 a b = pyEqKey2 b a := by
  simp [pyEqKey2, pyEq_symm a.1 b.1, pyEq_symm a.2 b.2]

theorem pyEqKey2_trans (a b c : JVal × JVal) :
    pyEqKey2 a b = true → pyEqKey2 b c = true → pyEqKey2 a c = true := by
  simp only [pyEqKey2, Bool.and_eq_true]
  intro h1 h2
  exact ⟨pyEq_trans _ _ _ h1.1 h2.1, pyEq_trans _ _ _ h1.2 h2.2⟩

theorem dedupFixes_go_not_seen :
    ∀ (l : List FixDict) (seen : List (JVal × JVal)) (f : FixDict),
    f ∈ dedupFixes_go seen l → seen.any (pyEqKey2 (dedupFixKey f)) = false := by
  intro l
  induction l with
  | nil => intro seen f h; simp [dedupFixes_go] at h
  | cons g rest ih =>
    intro seen f h
    rw [dedupFixes_go] at h
    split_ifs at h with hseen
    · exact ih seen f h
    · rcases List.mem_cons.mp h with h | h
      · subst h
        exact Bool.not_eq_true _ ▸ hseen
      · have := ih (seen ++ [dedupFixKey g]) f h
        rw [List.any_append] at this
        exact (Bool.or_eq_false_iff.mp this).1

theorem dedupFixes_go_pairwise :
    ∀ (l : List FixDict) (seen : List (JVal × JVal)),
    (dedupFixes_go seen l).Pairwise
      (fun a b => pyEqKey2 (dedupFixKey a) (dedupFixKey b) = false) := by
  intro l
  induction l with
  | nil => intro seen; simp [dedupFixes_go]
  | cons g rest ih =>
    intro seen
    rw [dedupFixes_go]
    split_ifs with hseen
    · exact ih seen
    · refine List.Pairwise.cons ?_ (ih _)
      intro b hb
      have := dedupFixes_go_not_seen rest (seen ++ [dedupFixKey g]) b hb
      rw [List.any_append] at this
      have h2 := (Bool.or_eq_false_iff.mp this).2
      simp only [List.any_cons, List.any_nil, Bool.or_false] at h2
      rw [pyEqKey2_symm] at h2
      exact h2

theorem dedupFixes_go_first :
    ∀ (l : List FixDict) (seen : List (JVal × JVal)) (f : FixDict),
    f ∈ dedupFixes_go seen l →
    l.find? (fun g => pyEqKey2 (dedupFixKey g) (dedupFixKey f)) = some f := by
  intro l
  induction l with
  | nil => intro seen f h; simp [dedupFixes_go] at h
  | cons g rest ih =>
    intro seen f h
    rw [dedupFixes_go] at h
    split_ifs at h with hseen
    · -- g's key is already in `seen`, f's key is not: the keys differ
      have hf := dedupFixes_go_not_seen rest seen f h
      have hne : pyEqKey2 (dedupFixKey g) (dedupFixKey f) = false := by
        by_contra hc
        rw [Bool.not_eq_false] at hc
        obtain ⟨k, hk, hgk⟩ := List.any_eq_true.mp hseen
        have : pyEqKey2 (dedupFixKey f) k = true :=
          pyEqKey2_trans _ _ _ (pyEqKey2_symm (dedupFixKey g) (dedupFixKey f) ▸ hc) hgk
        have : seen.any (pyEqKey2 (dedupFixKey f)) = true :=
          List.any_eq_true.mpr ⟨k, hk, this⟩
        rw [hf] at this
        exact Bool.false_ne_true this
      rw [List.find?_cons, hne]
      exact ih seen f h
    · rcases List.mem_cons.mp h with h | h
      · subst h
        rw [List.find?_cons, pyEqKey2_refl]
      · have hf := dedupFixes_go_not_seen rest (seen ++ [dedupFixKey g]) f h
        rw [List.any_append] at hf
        have h2 := (Bool.or_eq_false_iff.mp hf).2
        simp only [List.any_cons, List.any_nil, Bool.or_false] at h2
        rw [pyEqKey2_symm] at h2
        rw [List.find?_cons, h2]
        exact ih _ f h

theorem validate_loop_extends : ∀ (items : List JItem) (acc out : List FixDict),
    validate_loop items acc = .ok out → ∃ t, out = acc ++ t := by
  intro items
  induction items with
  | nil =>
    intro acc out h
    rw [validate_loop, Except.ok.injEq] at h
    exact ⟨[], by simp [h]⟩
  | cons c rest ih =>
    intro acc out h
    rw [validate_loop] at h
    cases hn : normalize_fix c with
    | error e =>
      simp only [hn] at h
      exact absurd h (by simp)
    | ok nf =>
      simp only [hn] at h
      cases hv : validate_fix nf with
      | error e =>
        simp only [hv] at h
        exact absurd h (by simp)
      | ok b =>
        simp only [hv] at h
        cases b with
        | true =>
          obtain ⟨t, ht⟩ := ih _ _ h
          exact ⟨nf :: t, by simp [ht]⟩
        | false => exact ih _ _ h

theorem rule_loop_extends (rg : ParsedError → List JItem) :
    ∀ (es : List ParsedError) (acc out : List FixDict),
    rule_loop rg es acc = .ok out → ∃ t, out = acc ++ t := by
  intro es
  induction es with
  | nil =>
    intro acc out h
    rw [rule_loop, Except.ok.injEq] at h
    exact ⟨[], by simp [h]⟩
  | cons e rest ih =>
    intro acc out h
    rw [rule_loop] at h
    cases hv : validate_loop (rg e) acc with
    | error msg =>
      simp only [hv] at h
      exact absurd h (by simp)
    | ok acc2 =>
      simp only [hv] at h
      obtain ⟨t1, ht1⟩ := validate_loop_extends _ _ _ hv
      obtain ⟨t2, ht2⟩ := ih _ _ h
      exact ⟨t1 ++ t2, by simp [ht2, ht1]⟩

theorem rule_loop_congr (rg rgAlt : ParsedError → List JItem) :
    ∀ (es : List ParsedError) (acc : List FixDict),
    (∀ e ∈ es, rg e = rgAlt e) → rule_loop rg es acc = rule_loop rgAlt es acc := by
  intro es
  induction es with
  | nil => intro acc _; rfl
  | cons e rest ih =>
    intro acc hagree
    rw [rule_loop, rule_loop, hagree e (List.mem_cons_self _ _)]
    cases hv : validate_loop (rgAlt e) acc with
    | error msg => rfl
    | ok acc2 => exact ih _ (fun x hx => hagree x (List.mem_cons_of_mem _ hx))

/-! ### C3 — strategy coverage, priority and deduplication -/

/-- C3 counterexample: when the LLM and rule-based strategies produce no
fix, the ruff-autofix fallback is returned without deduplication. For
two input errors at the same `(file_path, line_number)` and a fallback
run reporting two auto-fixed issues, `generate_fixes` returns two
distinct fixes sharing the key — refuting "the final returned list
contains at most one fix per (file_path, line_number) key". (The
provider text `resp` is a response on which `parse_llm_response`
recovers no fix objects, and `_generate_rule_fixes` has no pattern
matching the `W000 ...` messages, so it returns no fixes for them.) -/
theorem C3_counterexample :
    generate_fixes ⟨"groq", "k", "", "", ""⟩ (fun _ => "resp") (fun _ => [])
        (fun _ => []) (some 2)
        [⟨"a.py", 1, "LINTING", "W000 mystery warning", some "W000"⟩,
         ⟨"a.py", 1, "LINTING", "W000 other warning", none⟩] "/repo" =
      .ok [⟨some (.jstr "a.py"), some (.jint 1), some (.jstr "LINTING"),
            some (.jstr "auto-fixed by ruff: W000 mystery warning"), some (.jstr ""),
            some (.jstr "[auto-fixed by ruff]"),
            some (.jstr "[AI-AGENT] Auto-fix W000 mystery warning in a.py")⟩,
           ⟨some (.jstr "a.py"), some (.jint 1), some (.jstr "LINTING"),
            some (.jstr "auto-fixed by ruff: W000 other warning"), some (.jstr ""),
            some (.jstr "[auto-fixed by ruff]"),
            some (.jstr "[AI-AGENT] Auto-fix W000 other warning in a.py")⟩] ∧
    pyEqKey2
      (dedupFixKey ⟨some (.jstr "a.py"), some (.jint 1), some (.jstr "LINTING"),
        some (.jstr "auto-fixed by ruff: W000 mystery warning"), some (.jstr ""),
        some (.jstr "[auto-fixed by ruff]"),
        some (.jstr "[AI-AGENT] Auto-fix W000 mystery warning in a.py")⟩)
      (dedupFixKey ⟨some (.jstr "a.py"), some (.jint 1), some (.jstr "LINTING"),
        some (.jstr "auto-fixed by ruff: W000 other warning"), some (.jstr ""),
        some (.jstr "[auto-fixed by ruff]"),
        some (.jstr "[AI-AGENT] Auto-fix W000 other warning in a.py")⟩) = true ∧
    (⟨some (.jstr "a.py"), some (.jint 1), some (.jstr "LINTING"),
      some (.jstr "auto-fixed by ruff: W000 mystery warning"), some (.jstr ""),
      some (.jstr "[auto-fixed by ruff]"),
      some (.jstr "[AI-AGENT] Auto-fix W000 mystery warning in a.py")⟩ : FixDict) ≠
    ⟨some (.jstr "a.py"), some (.jint 1), some (.jstr "LINTING"),
     some (.jstr "auto-fixed by ruff: W000 other warning"), some (.jstr ""),
     some (.jstr "[auto-fixed by ruff]"),
     some (.jstr "[AI-AGENT] Auto-fix W000 other warning in a.py")⟩ := by
  refine ⟨rfl, by decide, by decide⟩

/-- C3 (amended): (i) the final deduplication keeps at most one fix per
`(file_path, line_number)` key, and the survivor is the first fix with
its key in strategy order (the rule-based stage only appends after the
LLM fixes, so LLM fixes win); (ii) the rule generator is consulted only
for errors not covered by a validated LLM fix — two rule generators
agreeing on the uncovered errors give identical results; (iii) however
the deduplication guarantee covers only the LLM/rule-based path: an
output produced by the ruff-autofix fallback (taken exactly when that
path is empty) is not deduplicated. -/
theorem C3_strategy_merge :
    (∀ l : List FixDict,
       (dedupFixes l).Pairwise
         (fun a b => pyEqKey2 (dedupFixKey a) (dedupFixKey b) = false)
       ∧ ∀ f ∈ dedupFixes l,
           l.find? (fun g => pyEqKey2 (dedupFixKey g) (dedupFixKey f)) = some f)
    ∧ (∀ (rg : ParsedError → List JItem) (es : List ParsedError) (acc out : List FixDict),
        rule_loop rg es acc = .ok out → ∃ t, out = acc ++ t)
    ∧ (∀ (cfg : Config) (pt : String → String) (parse : String → List JItem)
         (rg rgAlt : ParsedError → List JItem) (rc : Option Nat)
         (errs : List ParsedError) (rp : String),
        (∀ v, llm_validated cfg pt parse = .ok v →
           ∀ e ∈ uncovered_errors errs v, rg e = rgAlt e) →
        generate_fixes cfg pt parse rg rc errs rp =
          generate_fixes cfg pt parse rgAlt rc errs rp)
    ∧ (∀ (cfg : Config) (pt : String → String) (parse : String → List JItem)
         (rg : ParsedError → List JItem) (rc : Option Nat)
         (errs : List ParsedError) (rp : String) (out : List FixDict),
        generate_fixes cfg pt parse rg rc errs rp = .ok out →
        out.Pairwise (fun a b => pyEqKey2 (dedupFixKey a) (dedupFixKey b) = false)
        ∨ out = ruff_autofix_fallback errs rc) := by
  refine ⟨?_, ?_, ?_, ?_⟩
  · intro l
    exact ⟨dedupFixes_go_pairwise l [], fun f hf => dedupFixes_go_first l [] f hf⟩
  · exact rule_loop_extends
  · intro cfg pt parse rg rgAlt rc errs rp hagree
    unfold generate_fixes
    split_ifs with herrs
    · rfl
    · cases hlv : llm_validated cfg pt parse with
      | error e => rfl
      | ok v =>
        dsimp only
        rw [rule_loop_congr rg rgAlt (uncovered_errors errs v) v (hagree v hlv)]
  · intro cfg pt parse rg rc errs rp out h
    unfold generate_fixes at h
    split_ifs at h with herrs
    · rw [Except.ok.injEq] at h
      subst h
      left
      exact List.Pairwise.nil
    · cases hlv : llm_validated cfg pt parse with
      | error e =>
        simp only [hlv] at h
        exact absurd h (by simp)
      | ok v =>
        simp only [hlv] at h
        cases hrl : rule_loop rg (uncovered_errors errs v) v with
        | error e =>
          simp only [hrl] at h
          exact absurd h (by simp)
        | ok v2 =>
          simp only [hrl] at h
          split_ifs at h with hfb
          · rw [Except.ok.injEq] at h
            subst h
            right
            rfl
          · rw [Except.ok.injEq] at h
            subst h
            left
            exact dedupFixes_go_pairwise v2 []

/-- Witness for C3 on the fallback run of the counterexample. -/
theorem C3_strategy_merge_witness :
    ([⟨some (.jstr "a.py"), some (.jint 1), some (.jstr "LINTING"),
       some (.jstr "auto-fixed by ruff: W000 mystery warning"), some (.jstr ""),
       some (.jstr "[auto-fixed by ruff]"),
       some (.jstr "[AI-AGENT] Auto-fix W000 mystery warning in a.py")⟩,
      ⟨some (.jstr "a.py"), some (.jint 1), some (.jstr "LINTING"),
       some (.jstr "auto-fixed by ruff: W000 other warning"), some (.jstr ""),
       some (.jstr "[auto-fixed by ruff]"),
       some (.jstr "[AI-AGENT] Auto-fix W000 other warning in a.py")⟩] : List FixDict).Pairwise
        (fun a b => pyEqKey2 (dedupFixKey a) (dedupFixKey b) = false)
    ∨ ([⟨some (.jstr "a.py"), some (.jint 1), some (.jstr "LINTING"),
         some (.jstr "auto-fixed by ruff: W000 mystery warning"), some (.jstr ""),
         some (.jstr "[auto-fixed by ruff]"),
         some (.jstr "[AI-AGENT] Auto-fix W000 mystery warning in a.py")⟩,
        ⟨some (.jstr "a.py"), some (.jint 1), some (.jstr "LINTING"),
         some (.jstr "auto-fixed by ruff: W000 other warning"), some (.jstr ""),
         some (.jstr "[auto-fixed by ruff]"),
         some (.jstr "[AI-AGENT] Auto-fix W000 other warning in a.py")⟩] : List FixDict) =
      ruff_autofix_fallback
        [⟨"a.py", 1, "LINTING", "W000 mystery warning", some "W000"⟩,
         ⟨"a.py", 1, "LINTING", "W000 other warning", none⟩] (some 2) :=
  C3_strategy_merge.2.2.2 ⟨"groq", "k", "", "", ""⟩ (fun _ => "resp") (fun _ => [])
    (fun _ => []) (some 2)
    [⟨"a.py", 1, "LINTING", "W000 mystery warning", some "W000"⟩,
     ⟨"a.py", 1, "LINTING", "W000 other warning", none⟩] "/repo" _ rfl

/-! ### Aggregator helper lemmas (for C7) -/

theorem str_data_inj {s t : String} (h : s.data = t.data) : s = t := by
  cases s
  cases t
  exact congrArg String.mk h

theorem backslash_not_mem_map (l : List Char) :
    '\\' ∉ l.map (fun c => if c = '\\' then '/' else c) := by
  intro h
  obtain ⟨a, -, ha⟩ := List.mem_map.mp h
  split_ifs at ha with hb
  · exact absurd ha (by decide)
  · exact hb ha

theorem normalize_path_no_backslash (s : String) : '\\' ∉ (normalize_path s).data := by
  unfold normalize_path
  dsimp only
  split_ifs with h
  · intro hmem
    exact backslash_not_mem_map s.data (List.mem_of_mem_drop hmem)
  · exact backslash_not_mem_map s.data

theorem parse_ruff_item_file (o : RuffObj) (e : LogEntry) (h : parse_ruff_item o = some e) :
    ∃ s, e.file = normalize_path s := by
  unfold parse_ruff_item at h
  dsimp only at h
  split_ifs at h
  rw [Option.some.injEq] at h
  subst h
  exact ⟨o.filename.getD "unknown", rfl⟩

theorem parse_ruff_go_file :
    ∀ (items : List RuffItem) (acc l : List LogEntry),
    parse_ruff_go items acc = .ok l →
    (∀ e ∈ acc, ∃ s, e.file = normalize_path s) →
    ∀ e ∈ l, ∃ s, e.file = normalize_path s := by
  intro items
  induction items with
  | nil =>
    intro acc l h hacc
    unfold parse_ruff_go at h
    rw [Except.ok.injEq] at h
    subst h
    exact hacc
  | cons it rest ih =>
    intro acc l h hacc
    unfold parse_ruff_go at h
    cases it with
    | nonDict => exact absurd h (by simp)
    | obj o =>
      cases hpi : parse_ruff_item o with
      | none =>
        simp only [hpi] at h
        exact ih _ _ h hacc
      | some e2 =>
        simp only [hpi] at h
        refine ih _ _ h ?_
        intro e2m hm
        rcases List.mem_append.mp hm with hm | hm
        · exact hacc _ hm
        · rw [List.mem_singleton] at hm
          subst hm
          exact parse_ruff_item_file o e2m hpi

theorem parse_ruff_file (inp : RuffInput) (l : List LogEntry)
    (h : parse_ruff inp = .ok l) : ∀ e ∈ l, ∃ s, e.file = normalize_path s := by
  cases inp with
  | missing => rw [parse_ruff, Except.ok.injEq] at h; subst h; simp
  | invalidJson => rw [parse_ruff, Except.ok.injEq] at h; subst h; simp
  | notList => rw [parse_ruff, Except.ok.injEq] at h; subst h; simp
  | arr items => exact parse_ruff_go_file items [] l h (by simp)

theorem parse_mypy_file (lp : String → Option (String × Int × String)) (lines : List String) :
    ∀ e ∈ parse_mypy lp lines, ∃ s, e.file = normalize_path s := by
  intro e he
  unfold parse_mypy at he
  obtain ⟨raw, -, h⟩ := List.mem_filterMap.mp he
  dsimp only at h
  split at h
  · simp at h
  · split at h
    · simp at h
    · split at h
      · simp at h
      · rw [Option.some.injEq] at h
        subst h
        exact ⟨_, rfl⟩

theorem parse_pytest_test_file (t : TestRec) (e : LogEntry)
    (h : parse_pytest_test t = some e) :
    e.file = "unknown" ∨ ∃ s, e.file = normalize_path s := by
  obtain ⟨nodeid, outcome, cc, sc, tc, cl, sl, tl⟩ := t
  unfold parse_pytest_test at h
  dsimp only at h
  cases cc with
  | some c =>
    dsimp only at h
    split at h
    · simp at h
    · rw [Option.some.injEq] at h
      subst h
      dsimp only
      split_ifs <;> first | exact Or.inl rfl | exact Or.inr ⟨_, rfl⟩
  | none =>
    cases sc with
    | some c =>
      dsimp only at h
      split at h
      · simp at h
      · rw [Option.some.injEq] at h
        subst h
        dsimp only
        split_ifs <;> first | exact Or.inl rfl | exact Or.inr ⟨_, rfl⟩
    | none =>
      cases tc with
      | some c =>
        dsimp only at h
        split at h
        · simp at h
        · rw [Option.some.injEq] at h
          subst h
          dsimp only
          split_ifs <;> first | exact Or.inl rfl | exact Or.inr ⟨_, rfl⟩
      | none =>
        dsimp only at h
        split at h
        · simp at h
        · rw [Option.some.injEq] at h
          subst h
          dsimp only
          split_ifs <;> first | exact Or.inl rfl | exact Or.inr ⟨_, rfl⟩

theorem parse_pytest_file (inp : PytestInput) :
    ∀ e ∈ parse_pytest inp, e.file = "unknown" ∨ ∃ s, e.file = normalize_path s := by
  intro e he
  cases inp with
  | missing => simp [parse_pytest] at he
  | invalidJson => simp [parse_pytest] at he
  | parsed tests =>
    unfold parse_pytest at he
    obtain ⟨t, -, h⟩ := List.mem_filterMap.mp he
    exact parse_pytest_test_file t e h

theorem dedup_go_subset :
    ∀ (l : List LogEntry) (seen : List (String × Int × String)) (e : LogEntry),
    e ∈ dedup_go seen l → e ∈ l := by
  intro l
  induction l with
  | nil => intro seen e h; simp [dedup_go] at h
  | cons g rest ih =>
    intro seen e h
    rw [dedup_go] at h
    split_ifs at h with hseen
    · exact List.mem_cons_of_mem g (ih _ e h)
    · rcases List.mem_cons.mp h with h | h
      · subst h; exact List.mem_cons_self _ _
      · exact List.mem_cons_of_mem g (ih _ e h)

theorem dedup_go_not_seen :
    ∀ (l : List LogEntry) (seen : List (String × Int × String)) (e : LogEntry),
    e ∈ dedup_go seen l → dedupKey e ∉ seen := by
  intro l
  induction l with
  | nil => intro seen e h; simp [dedup_go] at h
  | cons g rest ih =>
    intro seen e h
    rw [dedup_go] at h
    split_ifs at h with hseen
    · exact ih seen e h
    · rcases List.mem_cons.mp h with h | h
      · subst h; exact hseen
      · intro hmem
        exact absurd (List.mem_append_left _ hmem) (ih _ e h)

theorem dedup_go_pairwise :
    ∀ (l : List LogEntry) (seen : List (String × Int × String)),
    (dedup_go seen l).Pairwise (fun a b => dedupKey a ≠ dedupKey b) := by
  intro l
  induction l with
  | nil => intro seen; simp [dedup_go]
  | cons g rest ih =>
    intro seen
    rw [dedup_go]
    split_ifs with hseen
    · exact ih seen
    · refine List.Pairwise.cons ?_ (ih _)
      intro b hb hkey
      have := dedup_go_not_seen rest (seen ++ [dedupKey g]) b hb
      exact this (List.mem_append_right _ (by simp [hkey]))

theorem dedup_go_first :
    ∀ (l : List LogEntry) (seen : List (String × Int × String)) (e : LogEntry),
    e ∈ dedup_go seen l →
    l.find? (fun g => dedupKey g = dedupKey e) = some e := by
  intro l
  induction l with
  | nil => intro seen e h; simp [dedup_go] at h
  | cons g rest ih =>
    intro seen e h
    rw [dedup_go] at h
    split_ifs at h with hseen
    · have hne : ¬ (dedupKey g = dedupKey e) := by
        intro hkey
        exact dedup_go_not_seen rest seen e h (hkey ▸ hseen)
      have hd : decide (dedupKey g = dedupKey e) = false := by simpa using hne
      rw [List.find?_cons, hd]
      exact ih seen e h
    · rcases List.mem_cons.mp h with h | h
      · subst h
        have hd : decide (dedupKey e = dedupKey e) = true := by simp
        rw [List.find?_cons, hd]
      · have hne : ¬ (dedupKey g = dedupKey e) := by
          intro hkey
          exact dedup_go_not_seen rest (seen ++ [dedupKey g]) e h
            (List.mem_append_right _ (by simp [hkey]))
        have hd : decide (dedupKey g = dedupKey e) = false := by simpa using hne
        rw [List.find?_cons, hd]
        exact ih _ e h

theorem validate_entry_key (a b : LogEntry) (h : validate_entry a = some b) :
    dedupKey b = dedupKey a ∧ b.file = a.file := by
  unfold validate_entry at h
  split_ifs at h
  · rw [Option.some.injEq] at h
    subst h
    exact ⟨rfl, rfl⟩
  · rw [Option.some.injEq] at h
    subst h
    exact ⟨rfl, rfl⟩

theorem validate_output_pairwise :
    ∀ l : List LogEntry, l.Pairwise (fun a b => dedupKey a ≠ dedupKey b) →
    (validate_output l).Pairwise (fun a b => dedupKey a ≠ dedupKey b) := by
  intro l
  induction l with
  | nil => intro _; simp [validate_output]
  | cons a rest ih =>
    intro hp
    rw [List.pairwise_cons] at hp
    unfold validate_output
    rw [List.filterMap_cons]
    cases hfa : validate_entry a with
    | none => exact ih hp.2
    | some b =>
      refine List.Pairwise.cons ?_ (ih hp.2)
      intro e he
      obtain ⟨a2, ha2, hfa2⟩ := List.mem_filterMap.mp he
      rw [(validate_entry_key a b hfa).1, (validate_entry_key a2 e hfa2).1]
      exact hp.1 a2 ha2

theorem entryLe_total (a b : LogEntry) : (entryLe a b || entryLe b a) = true := by
  unfold entryLe
  by_cases h1 : lexLt a.file.data b.file.data = true
  · simp [h1]
  · by_cases h2 : lexLt b.file.data a.file.data = true
    · simp [h2]
    · have heq : a.file = b.file :=
        str_data_inj (lexLt_conn _ _ (Bool.not_eq_true _ ▸ h1) (Bool.not_eq_true _ ▸ h2))
      rcases Int.le_total a.line b.line with h | h <;> simp [heq, h]

theorem entryLe_trans (a b c : LogEntry) :
    entryLe a b = true → entryLe b c = true → entryLe a c = true := by
  unfold entryLe
  simp only [Bool.or_eq_true, Bool.and_eq_true, decide_eq_true_eq]
  rintro (h1 | ⟨hfe1, hl1⟩) (h2 | ⟨hfe2, hl2⟩)
  · exact Or.inl (lexLt_trans _ _ _ h1 h2)
  · rw [← hfe2]
    exact Or.inl h1
  · rw [hfe1]
    exact Or.inl h2
  · exact Or.inr ⟨hfe1.trans hfe2, le_trans hl1 hl2⟩

/-! ### C7 — aggregator output ordering, deduplication and paths -/

/-- C7 counterexample: `normalize_path` strips only one leading `./`, so
the raw path `././a.py` is emitted as `./a.py`, which still starts with
`./` — refuting "every emitted file path … does not start with `./`". -/
theorem C7_counterexample :
    aggregate_main
        (.arr [.obj ⟨some "F401", some "x imported but unused", some "././a.py", some 1⟩])
        (fun _ => none) [] .missing =
      .ok [⟨"IMPORT", "./a.py", 1, "x imported but unused", "ruff", "F401"⟩] ∧
    pyStartsWith "./a.py" "./" = true := by
  constructor
  · have h : aggregate_main
        (.arr [.obj ⟨some "F401", some "x imported but unused", some "././a.py", some 1⟩])
        (fun _ => none) [] .missing =
        .ok (List.mergeSort
          [⟨"IMPORT", "./a.py", 1, "x imported but unused", "ruff", "F401"⟩] entryLe) := rfl
    rwa [List.mergeSort_singleton] at h
  · decide

/-- C7 (amended): every successful aggregator run is sorted ascending by
`(file, line)` and holds at most one record per `(file, line, type)` key
(the survivor being the first occurrence in ruff → mypy → pytest merge
order, per the second conjunct), and every emitted path contains no
backslash; however a path may still begin with `./` when the raw path
repeated the prefix, since `normalize_path` strips only one `./`. -/
theorem C7_aggregate_output :
    (∀ (ruffIn : RuffInput) (lp : String → Option (String × Int × String))
       (mypyLines : List String) (pytestIn : PytestInput) (out : List LogEntry),
       aggregate_main ruffIn lp mypyLines pytestIn = .ok out →
       out.Pairwise (fun a b => entryLe a b = true)
       ∧ out.Pairwise (fun a b => dedupKey a ≠ dedupKey b)
       ∧ ∀ e ∈ out, '\\' ∉ e.file.data)
    ∧ (∀ l : List LogEntry,
        (deduplicate l).Pairwise (fun a b => dedupKey a ≠ dedupKey b)
        ∧ ∀ e ∈ deduplicate l, l.find? (fun g => dedupKey g = dedupKey e) = some e) := by
  constructor
  · intro ruffIn lp mypyLines pytestIn out h
    unfold aggregate_main at h
    cases hr : parse_ruff ruffIn with
    | error e =>
      simp only [hr] at h
      exact absurd h (by simp)
    | ok ruffErrors =>
      simp only [hr] at h
      rw [Except.ok.injEq] at h
      subst h
      refine ⟨?_, ?_, ?_⟩
      · exact List.sorted_mergeSort entryLe_trans entryLe_total _
      · exact (List.Perm.pairwise_iff (fun {_ _} hab heq => hab heq.symm)
          (List.mergeSort_perm _ entryLe)).mpr
          (validate_output_pairwise _ (dedup_go_pairwise _ []))
      · intro e he
        rw [List.mem_mergeSort] at he
        unfold validate_output at he
        obtain ⟨a, ha, hva⟩ := List.mem_filterMap.mp he
        rw [(validate_entry_key a e hva).2]
        have hall := dedup_go_subset _ [] a ha
        rcases List.mem_append.mp hall with hml | hp
        · rcases List.mem_append.mp hml with hruff | hmypy
          · obtain ⟨s, hs⟩ := parse_ruff_file ruffIn ruffErrors hr a hruff
            rw [hs]
            exact normalize_path_no_backslash s
          · obtain ⟨s, hs⟩ := parse_mypy_file lp mypyLines a hmypy
            rw [hs]
            exact normalize_path_no_backslash s
        · rcases parse_pytest_file pytestIn a hp with hu | ⟨s, hs⟩
          · rw [hu]
            decide
          · rw [hs]
            exact normalize_path_no_backslash s
  · intro l
    exact ⟨dedup_go_pairwise l [], fun e he => dedup_go_first l [] e he⟩

/-- Witness for C7 on a one-finding ruff run. -/
theorem C7_aggregate_output_witness :
    ([⟨"IMPORT", "a.py", 1, "x imported but unused", "ruff", "F401"⟩] :
        List LogEntry).Pairwise (fun a b => entryLe a b = true)
    ∧ ([⟨"IMPORT", "a.py", 1, "x imported but unused", "ruff", "F401"⟩] :
        List LogEntry).Pairwise (fun a b => dedupKey a ≠ dedupKey b)
    ∧ ∀ e ∈ ([⟨"IMPORT", "a.py", 1, "x imported but unused", "ruff", "F401"⟩] :
        List LogEntry), '\\' ∉ e.file.data :=
  C7_aggregate_output.1
    (.arr [.obj ⟨some "F401", some "x imported but unused", some "a.py", some 1⟩])
    (fun _ => none) [] .missing
    [⟨"IMPORT", "a.py", 1, "x imported but unused", "ruff", "F401"⟩]
    (by
      have h : aggregate_main
          (.arr [.obj ⟨some "F401", some "x imported but unused", some "a.py", some 1⟩])
          (fun _ => none) [] .missing =
          .ok (List.mergeSort
            [⟨"IMPORT", "a.py", 1, "x imported but unused", "ruff", "F401"⟩] entryLe) := rfl
      rwa [List.mergeSort_singleton] at h)
